import Mathlib

/-!
Verification development for the deep-research agent repository.

The definitions below are shallow embeddings of the TypeScript sources:
- `src/packages/deepresearch-agent/src/core/session.ts` (session controller,
  source table, report validator, slug derivation),
- `src/packages/deepresearch-agent/src/tools/web-search.ts` (search aggregator),
- `src/unnamed/part_001` (tool index and `extract-source.ts`: classification,
  generic extraction, readability mirror),
- `src/packages/deepresearch-agent/src/core/system-prompt.ts` (heading lists).

JavaScript strings are embedded as Lean `String` (code points instead of
UTF-16 units; all claims are about ASCII data where the two coincide).
`undefined`-able string fields are `Option String`, and JavaScript
truthiness for such a field (`undefined` and `""` are falsy) is `truthyOpt`.
Network effects (`fetch`) are embedded by passing each remote call's
observable outcome as an explicit argument.
-/

/-- JS whitespace class `\s` (ECMAScript WhiteSpace ∪ LineTerminator). -/
def isJsWhitespace (c : Char) : Bool :=
  c = ' ' || c = '\t' || c = '\n' || c = '\r' || c = '\x0b' || c = '\x0c' ||
  c.toNat = 0xa0 || c.toNat = 0x1680 ||
  (0x2000 ≤ c.toNat && c.toNat ≤ 0x200a) ||
  c.toNat = 0x2028 || c.toNat = 0x2029 || c.toNat = 0x202f ||
  c.toNat = 0x205f || c.toNat = 0x3000 || c.toNat = 0xfeff

/-- JS `String.prototype.trim`. -/
def jsTrim (s : String) : String :=
  String.mk (((s.data.dropWhile isJsWhitespace).reverse.dropWhile isJsWhitespace).reverse)

/-- Replace every run of `\s+` by a single space (the `prevWs` flag records
whether the previous character was part of a whitespace run). -/
def collapseWsAux : Bool → List Char → List Char
  | _, [] => []
  | prevWs, c :: rest =>
    if isJsWhitespace c then
      if prevWs then collapseWsAux true rest else ' ' :: collapseWsAux true rest
    else c :: collapseWsAux false rest

/-- Embeds `normalizeWhitespace` from `extract-source.ts`:
`input.replace(/\s+/g, " ").trim()`. -/
def normalizeWhitespace (input : String) : String :=
  jsTrim (String.mk (collapseWsAux false input.data))

/-- Tests whether `pat` occurs as a leading run of `l`. -/
def listStartsWith : List Char → List Char → Bool
  | [], _ => true
  | _ :: _, [] => false
  | p :: ps, c :: cs => p == c && listStartsWith ps cs

/-- Tests whether `pat` occurs somewhere in `l`. -/
def listContainsSub (pat : List Char) : List Char → Bool
  | [] => pat.isEmpty
  | l@(_ :: rest) => listStartsWith pat l || listContainsSub pat rest

/-- JS `String.prototype.startsWith`. -/
def strStartsWith (s pat : String) : Bool :=
  listStartsWith pat.data s.data

/-- JS `String.prototype.endsWith`. -/
def strEndsWith (s pat : String) : Bool :=
  listStartsWith pat.data.reverse s.data.reverse

/-- JS `String.prototype.toLowerCase` (ASCII range, like `Char.toLower`). -/
def strToLower (s : String) : String :=
  String.mk (s.data.map Char.toLower)

/-- The first `n` characters of `s` (JS `slice(0, n)`). -/
def strTake (s : String) (n : Nat) : String :=
  String.mk (s.data.take n)

/-- Returns `s` without its first `n` characters. -/
def strDrop (s : String) (n : Nat) : String :=
  String.mk (s.data.drop n)

/-- Returns `s` without its last `n` characters. -/
def strDropRight (s : String) (n : Nat) : String :=
  String.mk (s.data.take (s.data.length - n))

/-- Split at every occurrence of the character `sep` (JS `split`). -/
def splitOnChar (sep : Char) : List Char → List (List Char)
  | [] => [[]]
  | c :: cs =>
    if c = sep then [] :: splitOnChar sep cs
    else
      match splitOnChar sep cs with
      | seg :: rest => (c :: seg) :: rest
      | [] => [[c]]

/-- String-level single-character split. -/
def strSplitOnChar (sep : Char) (s : String) : List String :=
  (splitOnChar sep s.data).map String.mk

/-- Join character lists with a separator. -/
def listIntercalate (sep : List Char) : List (List Char) → List Char
  | [] => []
  | [x] => x
  | x :: xs => x ++ sep ++ listIntercalate sep xs

/-- Join strings with a separator (JS `Array.prototype.join`). -/
def strIntercalate (sep : String) (xs : List String) : String :=
  String.mk (listIntercalate sep.data (xs.map String.data))

/-- JS `String.prototype.replaceAll` with a literal pattern: non-overlapping
occurrences replaced left to right, the replacement never rescanned.  `fuel`
bounds the recursion; `input.length + 1` always suffices because every step
consumes at least one input character (`pat` is nonempty at every call
site). -/
def replaceAllListFuel (pat rep : List Char) : Nat → List Char → List Char
  | 0, l => l
  | _ + 1, [] => []
  | fuel + 1, c :: cs =>
    if listStartsWith pat (c :: cs) then
      rep ++ replaceAllListFuel pat rep fuel ((c :: cs).drop pat.length)
    else c :: replaceAllListFuel pat rep fuel cs

/-- String-level `replaceAll` with a nonempty literal pattern. -/
def strReplaceAll (s pat rep : String) : String :=
  String.mk (replaceAllListFuel pat.data rep.data (s.data.length + 1) s.data)

/-- Embeds `decodeEntities` / `decodeXmlEntities`: five sequential `replaceAll`s. -/
def decodeEntities (value : String) : String :=
  strReplaceAll (strReplaceAll (strReplaceAll (strReplaceAll (strReplaceAll value
    "&amp;" "&") "&lt;" "<") "&gt;" ">") "&quot;" "\"") "&#39;" "'"

/-- Embeds `clipText` from `extract-source.ts`: keep `input` when it fits, else the
first `maxChars - 1` characters followed by a single ellipsis character. -/
def clipText (input : String) (maxChars : Nat) : String :=
  if input.length ≤ maxChars then input else strTake input (maxChars - 1) ++ "…"

/-- JS truthiness of a possibly-`undefined` string (`undefined`/`""` falsy). -/
def truthyOpt : Option String → Bool
  | none => false
  | some s => !(s == "")

/-- JS `a || b` on possibly-`undefined` strings. -/
def jsOrOptStr (a b : Option String) : Option String :=
  if truthyOpt a then a else b

/-- JS `a || b` where `a` is a plain string. -/
def jsOrStr (a : String) (b : String) : String :=
  if a == "" then b else a


/-! ## Session controller: turn counting and the turn cap
(`session.ts`, `handleAgentEvent` lines 327-343 and the constructor line 231). -/

/-- The turn-relevant fields of `RunState` (`session.ts` lines 71-75).
The `sources` map of the same record is modelled separately by `addSource`
below, since `handleAgentEvent` updates the two independently. -/
structure RunState where
  turnCount : Nat
  maxTurnsExceeded : Bool
deriving DecidableEq, Repr

/-- The agent-event kinds `handleAgentEvent` discriminates on.  Events other
than `turn_end` and `tool_execution_end` never touch the run state. -/
inductive AgentEventKind where
  | turn_end
  | tool_execution_end
  | other
deriving DecidableEq, Repr

/-- The `turn_end` branch of `handleAgentEvent` (`session.ts` lines 329-335):
increment `turnCount`; the first time it reaches `maxTurns`, set
`maxTurnsExceeded` and call `this.agent.abort()`.  The returned `Bool` records
whether `abort` was requested while handling this event.  `maxTurns` is `Int`
because the JS option value may be zero or negative before clamping. -/
def handleTurnEvent (maxTurns : Int) (s : RunState) : AgentEventKind → RunState × Bool
  | .turn_end =>
    let tc := s.turnCount + 1
    if maxTurns ≤ (tc : Int) ∧ s.maxTurnsExceeded = false then
      ({ turnCount := tc, maxTurnsExceeded := true }, true)
    else
      ({ s with turnCount := tc }, false)
  | _ => (s, false)

/-- Process a sequence of agent events in emission order, returning the final
run state and the total number of `abort` requests issued by the turn-cap
logic. -/
def processEvents (maxTurns : Int) (s : RunState) : List AgentEventKind → RunState × Nat
  | [] => (s, 0)
  | e :: es =>
    let step := handleTurnEvent maxTurns s e
    let rest := processEvents maxTurns step.1 es
    (rest.1, (if step.2 then 1 else 0) + rest.2)

/-- Holds exactly for turn-boundary events. -/
def isTurnEnd : AgentEventKind → Bool
  | .turn_end => true
  | _ => false

/-- Number of turn-boundary events in a sequence. -/
def countTurnEnds (es : List AgentEventKind) : Nat :=
  (es.filter isTurnEnd).length

/-- Embeds `session.ts` line 231: `this.maxTurns = Math.max(1, options.maxTurns ?? 24)`. -/
def effectiveMaxTurns (maxTurnsOption : Option Int) : Int :=
  max 1 (maxTurnsOption.getD 24)

/-! ## Session controller: the per-run source table
(`session.ts`, `SourceReference` lines 34-40 and `addSource` lines 276-296). -/

/-- Embeds `SourceReference` (`session.ts` lines 34-40).  Optional fields are
`Option String`; JS merging treats `undefined` and `""` alike as empty. -/
structure SourceReference where
  url : String
  title : Option String
  source : Option String
  snippet : Option String
  addedAt : String
deriving DecidableEq, Repr

/-- Embeds `Omit<SourceReference, "addedAt">`, the argument of `addSource`. -/
structure SourceObs where
  url : String
  title : Option String
  source : Option String
  snippet : Option String
deriving DecidableEq, Repr

/-- The spread expression of `addSource` for an existing entry
(`session.ts` lines 289-295): keep every populated field, fill empty fields
from the new observation, keep the original `addedAt`. -/
def mergeSourceReference (existing : SourceReference) (src : SourceObs) : SourceReference :=
  { url := existing.url
    title := jsOrOptStr existing.title src.title
    snippet := jsOrOptStr existing.snippet src.snippet
    source := jsOrOptStr existing.source src.source
    addedAt := existing.addedAt }

/-- The `Map<string, SourceReference>` of a run, as an insertion-ordered
association list keyed by URL. -/
abbrev SourceTable := List (String × SourceReference)

/-- Embeds `Map.set` on a key that is already present (keeps its position). -/
def updateAssoc : SourceTable → String → SourceReference → SourceTable
  | [], _, _ => []
  | (k, v) :: rest, key, nv =>
    if k = key then (k, nv) :: rest else (k, v) :: updateAssoc rest key nv

/-- Embeds `addSource` (`session.ts` lines 276-296): insert a fresh entry stamped
`now` for a new URL, otherwise merge into the existing entry. -/
def addSource (sources : SourceTable) (src : SourceObs) (now : String) : SourceTable :=
  match List.lookup src.url sources with
  | none =>
    sources ++ [(src.url,
      { url := src.url, title := src.title, source := src.source,
        snippet := src.snippet, addedAt := now })]
  | some existing => updateAssoc sources src.url (mergeSourceReference existing src)

/-! ## Session controller: the `run()` lifecycle
(`session.ts`, `run` lines 345-452). -/

/-- Hostname and pathname of a parsed URL (the two components the embedded
code inspects). -/
structure UrlParts where
  hostname : String
  pathname : String
deriving DecidableEq, Repr

/-- The typed failure reasons of `run()` in source order. -/
inductive RunError where
  | concurrentRun
  | emptySeed
  | invalidSeed
  | promptFailed
  | turnCapExceeded
  | artifactMissing
deriving DecidableEq, Repr

/-- The control flow of `run()` (`session.ts` lines 345-452), with the
externally-determined outcomes passed in: `parsedSeed` is the result of
`new URL(seed.trim())`, `promptThrew` whether `agent.prompt` threw,
`finalRun` the run state after the prompt loop finished, and `reportExists`
whether `readFile(reportPath)` succeeded.  Returns the controller's
`currentRun` field after the call together with the call's outcome
(`ok` carries the returned `turnCount`). -/
def runModel (current : Option RunState) (seed : String) (parsedSeed : Option UrlParts)
    (promptThrew : Bool) (finalRun : RunState) (reportExists : Bool) :
    Option RunState × Except RunError Nat :=
  if current.isSome then (current, .error .concurrentRun)
  else if (jsTrim seed).length = 0 then (none, .error .emptySeed)
  else
    match parsedSeed with
    | none => (none, .error .invalidSeed)
    | some _ =>
      -- `this.currentRun := runState`; `await prompt` ... `finally currentRun := undefined`
      if promptThrew then (none, .error .promptFailed)
      else if finalRun.maxTurnsExceeded then (none, .error .turnCapExceeded)
      else if reportExists = false then (none, .error .artifactMissing)
      else (none, .ok finalRun.turnCount)

/-! ## Slug derivation
(`session.ts`, `parseArxivId` lines 185-198, `sanitizeSlug` lines 200-206,
`createPaperSlug` lines 208-218). -/

/-- Characters the URL-path capture classes `[^/?#]` exclude. -/
def isPathDelim (c : Char) : Bool :=
  c = '/' || c = '?' || c = '#'

/-- The regex `/^\/abs\/([^\/?#]+)/` applied to a pathname: a `/abs/` head
followed by at least one non-delimiter character; the (greedy) capture stops
at the first `/`, `?` or `#`. -/
def matchAbsPath (pathname : String) : Option String :=
  if strStartsWith pathname "/abs/" then
    let captured := (pathname.data.drop 5).takeWhile (fun c => !isPathDelim c)
    if captured.length > 0 then some (String.mk captured) else none
  else none

/-- The regex `/^\/pdf\/([^\/?#]+?)(?:\.pdf)?$/` applied to a pathname: the
whole tail after `/pdf/` must be delimiter-free, and a single trailing
`.pdf` is stripped by the non-greedy capture unless the tail is exactly
`".pdf"` (the capture needs at least one character). -/
def matchPdfPath (pathname : String) : Option String :=
  if strStartsWith pathname "/pdf/" then
    let rest := strDrop pathname 5
    if rest.data.any isPathDelim then none
    else if rest.length = 0 then none
    else if strEndsWith rest ".pdf" ∧ 4 < rest.length then some (strDropRight rest 4)
    else some rest
  else none

/-- Embeds `parseArxivId` (identical in `session.ts` lines 185-198 and
`extract-source.ts`): only for hosts ending in `arxiv.org`, try the `/abs/`
pattern and then the `/pdf/` pattern. -/
def parseArxivId (seedUrl : UrlParts) : Option String :=
  if !(strEndsWith seedUrl.hostname "arxiv.org") then none
  else
    match matchAbsPath seedUrl.pathname with
    | some id => some id
    | none => matchPdfPath seedUrl.pathname

/-- Lower-case ASCII letters and digits, the class kept by `sanitizeSlug`. -/
def isSlugChar (c : Char) : Bool :=
  ('a' ≤ c && c ≤ 'z') || ('0' ≤ c && c ≤ '9')

/-- The first replace of `sanitizeSlug`, namely `[^a-z0-9]+` to `"-"`: each maximal run of non-slug characters
becomes a single hyphen (`prevDash` records whether the run is open). -/
def collapseNonSlugRuns : Bool → List Char → List Char
  | _, [] => []
  | prevDash, c :: rest =>
    if isSlugChar c then c :: collapseNonSlugRuns false rest
    else if prevDash then collapseNonSlugRuns true rest
    else '-' :: collapseNonSlugRuns true rest

/-- The second replace of `sanitizeSlug`: strip leading and trailing hyphen runs. -/
def trimDashes (l : List Char) : List Char :=
  ((l.dropWhile (· = '-')).reverse.dropWhile (· = '-')).reverse

/-- The third replace of `sanitizeSlug`, collapsing hyphen runs to a single
hyphen (a no-op after the first two steps, kept for fidelity). -/
def collapseDashRuns : Bool → List Char → List Char
  | _, [] => []
  | prevDash, c :: rest =>
    if c = '-' then
      if prevDash then collapseDashRuns true rest else '-' :: collapseDashRuns true rest
    else c :: collapseDashRuns false rest

/-- Embeds `sanitizeSlug` (`session.ts` lines 200-206). -/
def sanitizeSlug (value : String) : String :=
  String.mk (collapseDashRuns false
    (trimDashes (collapseNonSlugRuns false (strToLower value).data)))

/-- Embeds `createPaperSlug` (`session.ts` lines 208-218). -/
def createPaperSlug (seedUrl : UrlParts) : String :=
  match parseArxivId seedUrl with
  | some arxivId => jsOrStr (sanitizeSlug ("arxiv-" ++ arxivId)) "arxiv-paper"
  | none =>
    let pathFragment :=
      strIntercalate "-" ((strSplitOnChar '/' seedUrl.pathname).filter (· ≠ ""))
    let slug := sanitizeSlug (seedUrl.hostname ++ "-" ++ pathFragment)
    if slug.length > 0 then strTake slug 80 else "paper"

/-! ## Report validator
(`session.ts`, `hasHeading` lines 120-122, `getSectionBody` lines 124-152,
`validateReport` lines 154-183; heading lists from `system-prompt.ts`). -/

/-- Embeds `REQUIRED_REPORT_HEADINGS` (`system-prompt.ts` lines 1-8). -/
def REQUIRED_REPORT_HEADINGS : List String :=
  ["# Paper",
   "## 1. Key Problems and Challenges",
   "## 2. How This Paper Solves Them",
   "## 3. Related Work and Key Differences",
   "## 4. Future Directions",
   "## References"]

/-- Embeds `REQUIRED_QUESTION_HEADINGS` (`system-prompt.ts` lines 10-15). -/
def REQUIRED_QUESTION_HEADINGS : List String :=
  ["## 1. Key Problems and Challenges",
   "## 2. How This Paper Solves Them",
   "## 3. Related Work and Key Differences",
   "## 4. Future Directions"]

/-- Embeds `hasHeading` (`session.ts` lines 120-122): the multiline regex
`^<escaped heading>\s*$` holds exactly when some `\n`-separated line is the
heading followed only by whitespace. -/
def hasHeading (markdown : String) (heading : String) : Bool :=
  (strSplitOnChar '\n' markdown).any (fun line =>
    strStartsWith line heading && (line.data.drop heading.data.length).all isJsWhitespace)

/-- The regex `/^(#+)\s+/`: the heading level of a line, when the line starts
with one or more `#` followed by at least one whitespace character. -/
def lineHashLevel (line : String) : Option Nat :=
  let hashes := line.data.takeWhile (· = '#')
  if hashes.length = 0 then none
  else
    match line.data.drop hashes.length with
    | [] => none
    | c :: _ => if isJsWhitespace c then some hashes.length else none

/-- The loop of `getSectionBody` (`session.ts` lines 135-146): a line closes
the section when its trimmed form is a heading of level at most `level`. -/
def isClosingHeading (level : Nat) (line : String) : Bool :=
  match lineHashLevel (jsTrim line) with
  | some k => k ≤ level
  | none => false

/-- Embeds `getSectionBody` (`session.ts` lines 124-152). -/
def getSectionBody (markdown : String) (heading : String) : String :=
  let lines := strSplitOnChar '\n' (strReplaceAll markdown "\r\n" "\n")
  match lines.findIdx? (fun line => jsTrim line = jsTrim heading) with
  | none => ""
  | some sectionIndex =>
    let headingLevel := (lineHashLevel heading).getD 1
    let body := (lines.drop (sectionIndex + 1)).takeWhile
      (fun line => !isClosingHeading headingLevel line)
    jsTrim (strIntercalate "\n" body)

/-- Case-insensitive containment of the (lower-case) literal `pat`. -/
def containsLower (text : String) (pat : String) : Bool :=
  listContainsSub pat.data (strToLower text).data

/-- The alternation
`/(compare|compared|difference|differ|similar|whereas|unlike|in contrast)/i`
(`session.ts` lines 161-163). -/
def hasComparisonKeywordIn (text : String) : Bool :=
  containsLower text "compare" || containsLower text "compared" ||
  containsLower text "difference" || containsLower text "differ" ||
  containsLower text "similar" || containsLower text "whereas" ||
  containsLower text "unlike" || containsLower text "in contrast"

/-- The regex `/\[\d+\]/`: a `[`, one or more digits, then `]`. -/
def bracketCitationScan : List Char → Bool
  | [] => false
  | '[' :: rest =>
    (let ds := rest.takeWhile Char.isDigit
     decide (0 < ds.length) && ((rest.drop ds.length).head? == some ']'))
    || bracketCitationScan rest
  | _ :: rest => bracketCitationScan rest

/-- Applies the bracket-citation scan to a string. -/
def hasBracketCitationIn (text : String) : Bool :=
  bracketCitationScan text.data

/-- The regex `https?:\/\/\S+` matches at the head of `l`. -/
def urlAtHere (l : List Char) : Bool :=
  (listStartsWith "http://".data l &&
    (match l.drop 7 with
     | c :: _ => !isJsWhitespace c
     | [] => false)) ||
  (listStartsWith "https://".data l &&
    (match l.drop 8 with
     | c :: _ => !isJsWhitespace c
     | [] => false))

/-- Scan for a `https?:\/\/\S+` match anywhere. -/
def hasUrlScan : List Char → Bool
  | [] => false
  | l@(_ :: rest) => urlAtHere l || hasUrlScan rest

/-- The regex `/https?:\/\/\S+/` (case-sensitive, as in the References check,
`session.ts` line 168). -/
def hasUrlCs (text : String) : Bool :=
  hasUrlScan text.data

/-- The regex `/https?:\/\/\S+/i` (case-insensitive, as in the related-work check,
`session.ts` line 164). -/
def hasUrlCi (text : String) : Bool :=
  hasUrlScan (strToLower text).data

/-- Embeds `ReportValidation` (`session.ts` lines 42-49). -/
structure ReportValidation where
  hasAllRequiredHeadings : Bool
  missingHeadings : List String
  answeredRequiredQuestions : Bool
  hasRelatedWorkComparison : Bool
  hasReferenceUrls : Bool
  isComplete : Bool
deriving DecidableEq, Repr

/-- Embeds `validateReport` (`session.ts` lines 154-183). -/
def validateReport (markdown : String) : ReportValidation :=
  let missingHeadings := REQUIRED_REPORT_HEADINGS.filter (fun h => !(hasHeading markdown h))
  let answeredRequiredQuestions := REQUIRED_QUESTION_HEADINGS.all
    (fun h => decide (120 ≤ (getSectionBody markdown h).length))
  let relatedWorkText := getSectionBody markdown "## 3. Related Work and Key Differences"
  let comparisonKeyword := hasComparisonKeywordIn relatedWorkText
  let comparisonCitation := hasBracketCitationIn relatedWorkText || hasUrlCi relatedWorkText
  let hasRelatedWorkComparison := comparisonKeyword && comparisonCitation
  let referencesText := getSectionBody markdown "## References"
  let hasReferenceUrls := hasUrlCs referencesText
  let hasAllRequiredHeadings := missingHeadings.length == 0
  let isComplete := hasAllRequiredHeadings && answeredRequiredQuestions &&
    hasRelatedWorkComparison && hasReferenceUrls
  { hasAllRequiredHeadings := hasAllRequiredHeadings
    missingHeadings := missingHeadings
    answeredRequiredQuestions := answeredRequiredQuestions
    hasRelatedWorkComparison := hasRelatedWorkComparison
    hasReferenceUrls := hasReferenceUrls
    isComplete := isComplete }

/-! ## Source extraction pipeline
(`src/unnamed/part_001`, `extract-source.ts`). -/

/-- Embeds `SourceType` (`extract-source.ts` line 40). -/
inductive SourceType where
  | arxiv
  | pdf
  | html
  | other
deriving DecidableEq, Repr

/-- Case-sensitive substring containment (JS `String.prototype.includes`). -/
def containsStr (text pat : String) : Bool :=
  listContainsSub pat.data text.data

/-- Embeds `classifySourceType` (`extract-source.ts` lines 96-115): a host ending in
`arxiv.org` wins outright; otherwise path extension or content-type decides. -/
def classifySourceType (url : UrlParts) (contentType : Option String) : SourceType :=
  let normalizedContentType := strToLower (contentType.getD "")
  let path := strToLower url.pathname
  if strEndsWith url.hostname "arxiv.org" then .arxiv
  else if strEndsWith path ".pdf" || containsStr normalizedContentType "application/pdf" then .pdf
  else if strEndsWith path ".html" || strEndsWith path ".htm" ||
      containsStr normalizedContentType "text/html" ||
      containsStr normalizedContentType "application/xhtml+xml" then .html
  else .other

/-- Case-insensitive leading match against a lower-case literal `pat`. -/
def ciStartsWith : List Char → List Char → Bool
  | [], _ => true
  | _ :: _, [] => false
  | p :: ps, c :: cs => p == c.toLower && ciStartsWith ps cs

/-- Split at the first case-insensitive occurrence of `pat`: the part before
it and the part after it (`none` when `pat` never occurs). -/
def splitAtCi (pat : List Char) : List Char → Option (List Char × List Char)
  | [] => if pat.isEmpty then some ([], []) else none
  | l@(c :: cs) =>
    if ciStartsWith pat l then some ([], l.drop pat.length)
    else
      match splitAtCi pat cs with
      | some (pre, post) => some (c :: pre, post)
      | none => none

/-- Index of the first case-insensitive occurrence of `pat`. -/
def idxOfCi (pat : List Char) : List Char → Option Nat
  | [] => if pat.isEmpty then some 0 else none
  | l@(_ :: rest) =>
    if ciStartsWith pat l then some 0 else (idxOfCi pat rest).map (· + 1)

/-- One global replace of the lazy block regexes of `stripHtmlToText`
(`<script[\s\S]*?<\/script>` and its `style`/`noscript` twins, flags `gi`):
each region from an opening pattern to the nearest closing pattern becomes a
single space; an opening with no closing anywhere after it never matches.
`fuel` bounds the recursion; `input.length + 1` always suffices because every
step consumes at least one input character (the opening patterns are
nonempty). -/
def removeTagBlocksFuel (openPat closePat : List Char) : Nat → List Char → List Char
  | 0, l => l
  | _ + 1, [] => []
  | fuel + 1, c :: cs =>
    if ciStartsWith openPat (c :: cs) then
      match idxOfCi closePat ((c :: cs).drop openPat.length) with
      | some idx =>
        ' ' :: removeTagBlocksFuel openPat closePat fuel
          ((c :: cs).drop (openPat.length + idx + closePat.length))
      | none => c :: cs
    else c :: removeTagBlocksFuel openPat closePat fuel cs

/-- Runs `removeTagBlocksFuel` with its sufficient fuel. -/
def removeTagBlocks (openPat closePat : List Char) (l : List Char) : List Char :=
  removeTagBlocksFuel openPat closePat (l.length + 1) l

/-- The global replace `/<[^>]+>/g` → `" "`: a `<`, at least one non-`>`
character, then `>`, replaced by a single space.  `fuel` bounds the
recursion; `input.length + 1` always suffices because every step consumes at
least one input character. -/
def stripTagsFuel : Nat → List Char → List Char
  | 0, l => l
  | _ + 1, [] => []
  | fuel + 1, '<' :: rest =>
    let inner := rest.takeWhile (· ≠ '>')
    if 0 < inner.length ∧ (rest.drop inner.length).head? = some '>' then
      ' ' :: stripTagsFuel fuel (rest.drop (inner.length + 1))
    else '<' :: stripTagsFuel fuel rest
  | fuel + 1, c :: rest => c :: stripTagsFuel fuel rest

/-- Runs `stripTagsFuel` with its sufficient fuel. -/
def stripTags (l : List Char) : List Char :=
  stripTagsFuel (l.length + 1) l

/-- Embeds `stripHtmlToText` (`extract-source.ts` lines 172-180). -/
def stripHtmlToText (html : String) : String :=
  let withoutScript := removeTagBlocks "<script".data "</script>".data html.data
  let withoutStyle := removeTagBlocks "<style".data "</style>".data withoutScript
  let withoutNoscript :=
    removeTagBlocks "<noscript".data "</noscript>".data withoutStyle
  decodeEntities (normalizeWhitespace (String.mk (stripTags withoutNoscript)))

/-- Search for the regex `/<title[^>]*>([\s\S]*?)<\/title>/i` and return its
lazy capture: after `<title` and a `>`-free attribute span and `>`, everything
up to the nearest `</title>`. -/
def findTitleTag : List Char → Option (List Char)
  | [] => none
  | l@(_ :: rest) =>
    if ciStartsWith "<title".data l then
      let afterOpen := l.drop 6
      let attrs := afterOpen.takeWhile (· ≠ '>')
      if (afterOpen.drop attrs.length).head? = some '>' then
        match splitAtCi "</title>".data (afterOpen.drop (attrs.length + 1)) with
        | some (captured, _) => some captured
        | none => findTitleTag rest
      else findTitleTag rest
    else findTitleTag rest

/-- Embeds `extractHtmlTitle` (`extract-source.ts` lines 164-170). -/
def extractHtmlTitle (html : String) : Option String :=
  (findTitleTag html.data).map
    (fun captured => decodeEntities (normalizeWhitespace (String.mk captured)))

/-- The character class `["']`. -/
def isQuote (c : Char) : Bool :=
  c = '"' || c = '\''

/-- Match a case-insensitive literal at the head, returning the remainder. -/
def matchLitCi (lit : List Char) (l : List Char) : Option (List Char) :=
  if ciStartsWith lit l then some (l.drop lit.length) else none

/-- Backtracking for a greedy `[^>]*`: feed the continuation every suffix
reachable by consuming non-`>` characters, longest consumption first (the
order a backtracking regex engine explores). -/
def tryGreedySplits {α : Type} (k : List Char → Option α) : List Char → Option α
  | [] => k []
  | l@(c :: cs) =>
    if c = '>' then k l
    else
      match tryGreedySplits k cs with
      | some r => some r
      | none => k l

/-- Match `["']key["']` (character classes, so the quotes may differ). -/
def matchQuotedKey (key : List Char) (l : List Char) : Option (List Char) :=
  match l with
  | [] => none
  | q1 :: l1 =>
    if isQuote q1 then
      match matchLitCi key l1 with
      | some l2 =>
        match l2 with
        | [] => none
        | q2 :: l3 => if isQuote q2 then some l3 else none
      | none => none
    else none

/-- Match `(?:name|property)=["']key["']`, trying `name` before `property`. -/
def matchNameKey (key : List Char) (l : List Char) : Option (List Char) :=
  match (do matchQuotedKey key (← matchLitCi "name=".data l) : Option (List Char)) with
  | some r => some r
  | none => do matchQuotedKey key (← matchLitCi "property=".data l)

/-- Match `["']([^"']+)["']`: a quote, a nonempty quote-free capture, a quote. -/
def matchQuotedCapture (l : List Char) : Option (List Char × List Char) :=
  match l with
  | [] => none
  | q1 :: l1 =>
    if isQuote q1 then
      let cap := l1.takeWhile (fun c => !isQuote c)
      if 0 < cap.length then
        match l1.drop cap.length with
        | q2 :: l2 => if isQuote q2 then some (cap, l2) else none
        | [] => none
      else none
    else none

/-- Match the closing `[^>]*>` of a meta tag, returning the remainder. -/
def closeTag (l : List Char) : Option (List Char) :=
  let pre := l.takeWhile (· ≠ '>')
  match l.drop pre.length with
  | '>' :: rest => some rest
  | _ => none

/-- Attempt the first `extractMetaContent` regex at the head of `l`
(`name`/`property` before `content`); on success return the capture and the
remainder after the whole match. -/
def matchMetaDirectAt (key : List Char) (l : List Char) : Option (List Char × List Char) := do
  let l1 ← matchLitCi "<meta".data l
  match l1 with
  | [] => none
  | c :: l2 =>
    if isJsWhitespace c then
      tryGreedySplits (fun l3 => do
        let l4 ← matchNameKey key l3
        tryGreedySplits (fun l5 => do
          let l6 ← matchLitCi "content=".data l5
          let capRest ← matchQuotedCapture l6
          let l8 ← closeTag capRest.2
          pure (capRest.1, l8)) l4) l2
    else none

/-- Attempt the second `extractMetaContent` regex at the head of `l`
(`content` before `name`/`property`). -/
def matchMetaReverseAt (key : List Char) (l : List Char) : Option (List Char × List Char) := do
  let l1 ← matchLitCi "<meta".data l
  match l1 with
  | [] => none
  | c :: l2 =>
    if isJsWhitespace c then
      tryGreedySplits (fun l3 => do
        let l4 ← matchLitCi "content=".data l3
        let capRest ← matchQuotedCapture l4
        tryGreedySplits (fun l6 => do
          let l7 ← matchNameKey key l6
          let l8 ← closeTag l7
          pure (capRest.1, l8)) capRest.2) l2
    else none

/-- Leftmost match of a positional matcher: try every start position. -/
def scanFirstCapture (m : List Char → Option (List Char × List Char)) :
    List Char → Option (List Char)
  | [] => (m []).map Prod.fst
  | l@(_ :: rest) =>
    match m l with
    | some capRest => some capRest.1
    | none => scanFirstCapture m rest

/-- All matches in `matchAll` order: scan forward, resuming after each whole
match.  `fuel` bounds the recursion; `input.length + 1` always suffices
because every match of these patterns consumes at least one character. -/
def scanAllCaptures (m : List Char → Option (List Char × List Char)) :
    Nat → List Char → List (List Char)
  | 0, _ => []
  | _ + 1, [] =>
    match m [] with
    | some capRest => [capRest.1]
    | none => []
  | fuel + 1, l@(_ :: rest) =>
    match m l with
    | some capRest => capRest.1 :: scanAllCaptures m fuel capRest.2
    | none => scanAllCaptures m fuel rest

/-- Embeds `extractMetaContent` (`extract-source.ts` lines 129-146). -/
def extractMetaContent (html : String) (key : String) : Option String :=
  match scanFirstCapture (matchMetaDirectAt (strToLower key).data) html.data with
  | some cap => some (decodeEntities (normalizeWhitespace (String.mk cap)))
  | none =>
    match scanFirstCapture (matchMetaReverseAt (strToLower key).data) html.data with
    | some cap => some (decodeEntities (normalizeWhitespace (String.mk cap)))
    | none => none

/-- The final filter of `extractMetaValues`: keep nonempty values that are
first occurrences (`value.length > 0 && array.indexOf(value) === index`). -/
def filterNonemptyFirstOcc (seen : List String) : List String → List String
  | [] => []
  | v :: rest =>
    if 0 < v.length ∧ !(seen.contains v) then v :: filterNonemptyFirstOcc (v :: seen) rest
    else filterNonemptyFirstOcc (v :: seen) rest

/-- Embeds `extractMetaValues` (`extract-source.ts` lines 148-162). -/
def extractMetaValues (html : String) (key : String) : List String :=
  let caps :=
    scanAllCaptures (matchMetaDirectAt (strToLower key).data) (html.length + 1) html.data ++
    scanAllCaptures (matchMetaReverseAt (strToLower key).data) (html.length + 1) html.data
  filterNonemptyFirstOcc []
    (caps.map (fun cap => decodeEntities (normalizeWhitespace (String.mk cap))))

/-- JS `\w` class `[A-Za-z0-9_]`. -/
def isWordChar (c : Char) : Bool :=
  c.isAlpha || c.isDigit || c = '_'

/-- Scan for the regex `/\b(19|20)\d{2}\b/`; `prev` is the character before
the current position (for the left word boundary). -/
def yearScan : Option Char → List Char → Option Nat
  | prev, d1 :: d2 :: d3 :: d4 :: rest =>
    if (match prev with
        | some p => !isWordChar p
        | none => true) &&
       ((d1 = '1' && d2 = '9') || (d1 = '2' && d2 = '0')) &&
       d3.isDigit && d4.isDigit &&
       (match rest.head? with
        | some n => !isWordChar n
        | none => true) then
      some ((d1.toNat - 48) * 1000 + (d2.toNat - 48) * 100 +
        (d3.toNat - 48) * 10 + (d4.toNat - 48))
    else yearScan (some d1) (d2 :: d3 :: d4 :: rest)
  | _, _ => none

/-- Embeds `parseYear` (`extract-source.ts` lines 182-191); the falsy guard also
rejects the empty string. -/
def parseYear (input : Option String) : Option Nat :=
  match input with
  | none => none
  | some s => if s = "" then none else yearScan none s.data

/-- One hexadecimal digit's value. -/
def hexDigitVal (c : Char) : Option Nat :=
  if '0' ≤ c ∧ c ≤ '9' then some (c.toNat - 48)
  else if 'a' ≤ c ∧ c ≤ 'f' then some (c.toNat - 87)
  else if 'A' ≤ c ∧ c ≤ 'F' then some (c.toNat - 55)
  else none

/-- Model of the host `decodeURIComponent` builtin, decoding `%hh` escapes
byte-wise (multi-byte UTF-8 escape sequences do not occur in any input this
development evaluates). -/
def percentDecode : List Char → List Char
  | [] => []
  | '%' :: a :: b :: rest =>
    (match hexDigitVal a, hexDigitVal b with
     | some hi, some lo => Char.ofNat (16 * hi + lo) :: percentDecode rest
     | _, _ => '%' :: percentDecode (a :: b :: rest))
  | c :: rest => c :: percentDecode rest

/-- The global replace `/[-_]+/g` → `" "` of `guessTitleFromUrl`. -/
def dashUnderscoreRunsToSpace : Bool → List Char → List Char
  | _, [] => []
  | prevRun, c :: rest =>
    if c = '-' || c = '_' then
      if prevRun then dashUnderscoreRunsToSpace true rest
      else ' ' :: dashUnderscoreRunsToSpace true rest
    else c :: dashUnderscoreRunsToSpace false rest

/-- Embeds `guessTitleFromUrl` (`extract-source.ts` lines 117-123). -/
def guessTitleFromUrl (url : UrlParts) : String :=
  match ((strSplitOnChar '/' url.pathname).filter (· ≠ "")).getLast? with
  | none => url.hostname
  | some pathPart =>
    String.mk (dashUnderscoreRunsToSpace false (percentDecode pathPart.data))

/-- The observable outcome of one `fetch` of the readability-mirror proxy:
either the call threw, or it returned a response with the given `ok` flag and
body text. -/
inductive MirrorFetchOutcome where
  | threw
  | response (ok : Bool) (body : String)
deriving DecidableEq, Repr

/-- Embeds `fetchReadableMirror` (`extract-source.ts` lines 193-207): `undefined` on
a thrown fetch, a non-ok status, or an empty normalized body; otherwise the
clipped normalized text. -/
def fetchReadableMirror : MirrorFetchOutcome → Option String
  | .threw => none
  | .response ok body =>
    if !ok then none
    else
      let text := normalizeWhitespace body
      if text.length = 0 then none
      else some (clipText text 30000)

/-- The three failure modes of the readability-mirror fetch named by the
spec: thrown error, non-ok HTTP status, or empty (normalized) body. -/
def mirrorFails : MirrorFetchOutcome → Bool
  | .threw => true
  | .response ok body => !ok || (normalizeWhitespace body).length == 0

/-- The observable outcome of the primary `fetch` in `extractGenericSource`:
`url` is `response.url` after redirects and `urlParsed` its parsed form
(`new URL(response.url)`), `contentType` the `content-type` header, `body`
the response text. -/
structure FetchResponse where
  ok : Bool
  status : Nat
  statusText : String
  url : String
  urlParsed : UrlParts
  contentType : Option String
  body : String
deriving DecidableEq, Repr

/-- Embeds `ExtractSourceToolDetails` (`extract-source.ts` lines 42-51). -/
structure ExtractSourceToolDetails where
  title : String
  authors : Option (List String)
  year : Option Nat
  abstract : Option String
  fullText : Option String
  sourceType : SourceType
  canonicalUrl : String
  missingFields : List String
deriving DecidableEq, Repr

/-- JS falsiness of `details.authors`: `!authors || authors.length === 0`. -/
def authorsFalsy : Option (List String) → Bool
  | none => true
  | some authors => authors.isEmpty

/-- JS falsiness of `details.year` (`0` is falsy). -/
def yearFalsy : Option Nat → Bool
  | none => true
  | some y => y == 0

/-- Embeds `getMissingFields` (`extract-source.ts` lines 320-335). -/
def getMissingFields (details : ExtractSourceToolDetails) : List String :=
  (if authorsFalsy details.authors then ["authors"] else []) ++
  (if yearFalsy details.year then ["year"] else []) ++
  (if !(truthyOpt details.abstract) then ["abstract"] else []) ++
  (if !(truthyOpt details.fullText) then ["fullText"] else [])

/-- Embeds `classifySourceType(canonical, response.headers.get("content-type"))`
inside `extractGenericSource` (line 264). -/
def genericSourceType (resp : FetchResponse) : SourceType :=
  classifySourceType resp.urlParsed resp.contentType

/-- The `sourceType === "html" || sourceType === "other"` guard (line 272). -/
def isHtmlLike (st : SourceType) : Bool :=
  st == .html || st == .other

/-- The `title` value after lines 266 and 274:
`extractHtmlTitle(html) || extractMetaContent(html, "og:title") || title`. -/
def preTitle (resp : FetchResponse) : String :=
  if isHtmlLike (genericSourceType resp) then
    match jsOrOptStr (extractHtmlTitle resp.body) (extractMetaContent resp.body "og:title") with
    | some t => if t = "" then guessTitleFromUrl resp.urlParsed else t
    | none => guessTitleFromUrl resp.urlParsed
  else guessTitleFromUrl resp.urlParsed

/-- The `authors` value after lines 276-277. -/
def preAuthors (resp : FetchResponse) : Option (List String) :=
  if isHtmlLike (genericSourceType resp) then
    let citationAuthors := extractMetaValues resp.body "citation_author"
    if 0 < citationAuthors.length then some citationAuthors else none
  else none

/-- JS `a || b` on possibly-`undefined` numbers (`0` falsy). -/
def jsOrOptNat (a b : Option Nat) : Option Nat :=
  match a with
  | some n => if n = 0 then b else a
  | none => b

/-- The `year` value after lines 279-282. -/
def preYear (resp : FetchResponse) : Option Nat :=
  if isHtmlLike (genericSourceType resp) then
    jsOrOptNat (parseYear (extractMetaContent resp.body "citation_publication_date"))
      (jsOrOptNat (parseYear (extractMetaContent resp.body "article:published_time"))
        (parseYear (extractMetaContent resp.body "dc.date")))
  else none

/-- The `abstract` value after lines 284-290 (meta chain, clipped when
truthy), before the full-text backfill. -/
def preAbstract (resp : FetchResponse) : Option String :=
  if isHtmlLike (genericSourceType resp) then
    let abstract := jsOrOptStr (extractMetaContent resp.body "citation_abstract")
      (jsOrOptStr (extractMetaContent resp.body "description")
        (extractMetaContent resp.body "og:description"))
    if truthyOpt abstract then some (clipText (abstract.getD "") 1500) else abstract
  else none

/-- The `fullText` value after lines 292-296 (stripped HTML for `html`/
`other`, first mirror fetch for `pdf`), before the line-302 retry. -/
def preFullText (resp : FetchResponse) (mirrorA : MirrorFetchOutcome) : Option String :=
  let st := genericSourceType resp
  if isHtmlLike st then
    let stripped := stripHtmlToText resp.body
    if 0 < stripped.length then some (clipText stripped 30000) else none
  else if st == .pdf then fetchReadableMirror mirrorA
  else none

/-- Lines 298-300: backfill the abstract from the full text obtained so far. -/
def finalAbstract (resp : FetchResponse) (mirrorA : MirrorFetchOutcome) : Option String :=
  if !(truthyOpt (preAbstract resp)) && truthyOpt (preFullText resp mirrorA) then
    some (clipText ((preFullText resp mirrorA).getD "") 1500)
  else preAbstract resp

/-- Lines 302-304: when no full text was obtained, retry through the mirror. -/
def finalFullText (resp : FetchResponse) (mirrorA mirrorB : MirrorFetchOutcome) :
    Option String :=
  if !(truthyOpt (preFullText resp mirrorA)) then fetchReadableMirror mirrorB
  else preFullText resp mirrorA

/-- The `details` record built at lines 306-315, before `missingFields` is
recomputed. -/
def genericDetailsPre (resp : FetchResponse) (mirrorA mirrorB : MirrorFetchOutcome) :
    ExtractSourceToolDetails :=
  { title := preTitle resp
    authors := preAuthors resp
    year := preYear resp
    abstract := finalAbstract resp mirrorA
    fullText := finalFullText resp mirrorA mirrorB
    sourceType := genericSourceType resp
    canonicalUrl := resp.url
    missingFields := [] }

/-- Embeds `extractGenericSource` (`extract-source.ts` lines 249-318), with the
primary fetch outcome `resp` and the outcomes `mirrorA` (the line-295 mirror
call of the `pdf` branch) and `mirrorB` (the line-303 retry) passed in. -/
def extractGenericSource (resp : FetchResponse) (mirrorA mirrorB : MirrorFetchOutcome) :
    Except String ExtractSourceToolDetails :=
  if resp.ok = false then
    .error ("Source extraction failed: " ++ toString resp.status ++ " " ++ resp.statusText)
  else
    .ok { genericDetailsPre resp mirrorA mirrorB with
          missingFields := getMissingFields (genericDetailsPre resp mirrorA mirrorB) }

/-! ## Web search aggregator
(`src/packages/deepresearch-agent/src/tools/web-search.ts`). -/

/-- Embeds `WebSearchResult` (`web-search.ts` lines 13-18). -/
structure WebSearchResult where
  title : String
  url : String
  snippet : String
  source : String
deriving DecidableEq, Repr

/-- Embeds `WebSearchToolDetails` (`web-search.ts` lines 20-24); `providerErrors`
is `undefined` rather than `[]` when no provider failed. -/
structure WebSearchToolDetails where
  query : String
  results : List WebSearchResult
  providerErrors : Option (List String)
deriving DecidableEq, Repr

/-- The loop of `dedupeResults` with its `seen` set. -/
def dedupeAux (seen : List String) : List WebSearchResult → List WebSearchResult
  | [] => []
  | r :: rest =>
    if seen.contains r.url then dedupeAux seen rest
    else r :: dedupeAux (r.url :: seen) rest

/-- Embeds `dedupeResults` (`web-search.ts` lines 143-156): keep the first
occurrence of each URL. -/
def dedupeResults (results : List WebSearchResult) : List WebSearchResult :=
  dedupeAux [] results

/-- The merged result list the aggregator ends up with (lines 186-203,
provider outcomes passed in): the primary's results, extended and
deduplicated with the secondary's when the primary yielded fewer than
`limit`, truncated to `limit`. -/
def mergedResults (limit : Nat)
    (primary secondary : Except String (List WebSearchResult)) : List WebSearchResult :=
  let results :=
    match primary with
    | .ok rs => rs
    | .error _ => []
  if results.length < limit then
    match secondary with
    | .ok arxivResults => (dedupeResults (results ++ arxivResults)).take limit
    | .error _ => results
  else results

/-- The `execute` body of `createWebSearchTool` (`web-search.ts` lines
178-217), with each provider call's outcome passed in (`error` carries the
thrown message). -/
def webSearchExecute (query : String) (limit : Nat)
    (primary secondary : Except String (List WebSearchResult)) :
    Except String WebSearchToolDetails :=
  let q := jsTrim query
  if q.length = 0 then .error "Query must not be empty."
  else
    let step1 : List WebSearchResult × List String :=
      match primary with
      | .ok rs => (rs, [])
      | .error message => ([], ["semantic-scholar: " ++ message])
    let step2 : List WebSearchResult × List String :=
      if step1.1.length < limit then
        match secondary with
        | .ok arxivResults => ((dedupeResults (step1.1 ++ arxivResults)).take limit, step1.2)
        | .error message => (step1.1, step1.2 ++ ["arxiv: " ++ message])
      else step1
    if step2.1.length = 0 then
      .error ("No search results available" ++
        (if 0 < step2.2.length then " (" ++ strIntercalate "; " step2.2 ++ ")" else "") ++ ".")
    else
      .ok { query := q, results := step2.1,
            providerErrors := if 0 < step2.2.length then some step2.2 else none }

/-! ## Concrete instances used by witnesses and counterexamples. -/

/-- A search result used to instantiate the aggregator scenario. -/
def c3r1 : WebSearchResult :=
  { title := "T1", url := "u1", snippet := "s1", source := "arxiv" }

/-- A second search result with a distinct URL. -/
def c3r2 : WebSearchResult :=
  { title := "T2", url := "u2", snippet := "s2", source := "arxiv" }

/-- A stored source-table entry: populated title, empty snippet, no tag. -/
def c2exist : SourceReference :=
  { url := "u", title := some "T", source := none, snippet := some "", addedAt := "t0" }

/-- A later observation of the same URL with conflicting fields. -/
def c2obs : SourceObs :=
  { url := "u", title := some "X", source := some "arxiv", snippet := some "S" }

/-- An ok HTML response whose body is empty, so stripping yields no text. -/
def c10response : FetchResponse :=
  { ok := true, status := 200, statusText := "OK",
    url := "https://example.com/page.html",
    urlParsed := { hostname := "example.com", pathname := "/page.html" },
    contentType := some "text/html", body := "" }

/-- The extraction details produced for `c10response` when the first mirror
call is unused and the line-303 retry succeeds. -/
def c10details : ExtractSourceToolDetails :=
  (extractGenericSource c10response MirrorFetchOutcome.threw
      (MirrorFetchOutcome.response true "hello world from mirror")).toOption.getD
    { title := "", authors := none, year := none, abstract := none, fullText := none,
      sourceType := .other, canonicalUrl := "", missingFields := [] }

/-- An ok PDF response (empty body, content type `application/pdf`). -/
def pdfResponse : FetchResponse :=
  { ok := true, status := 200, statusText := "OK",
    url := "https://example.com/doc.pdf",
    urlParsed := { hostname := "example.com", pathname := "/doc.pdf" },
    contentType := some "application/pdf", body := "" }

/-- The extraction details for `pdfResponse` when the pdf-branch mirror call
succeeds with body `"Quantum  Widgets"`. -/
def pdfDetails : ExtractSourceToolDetails :=
  { title := "doc.pdf", authors := none, year := none,
    abstract := some "Quantum Widgets", fullText := some "Quantum Widgets",
    sourceType := .pdf, canonicalUrl := "https://example.com/doc.pdf",
    missingFields := ["authors", "year"] }

/-! # Theorems -/

/-! ## Helper lemmas -/

theorem countTurnEnds_nil : countTurnEnds [] = 0 :=
  rfl

theorem countTurnEnds_cons_turn_end (es : List AgentEventKind) :
    countTurnEnds (.turn_end :: es) = countTurnEnds es + 1 := by
  simp [countTurnEnds, List.filter_cons, isTurnEnd]

theorem countTurnEnds_cons_of_not (e : AgentEventKind) (es : List AgentEventKind)
    (h : isTurnEnd e = false) : countTurnEnds (e :: es) = countTurnEnds es := by
  simp [countTurnEnds, List.filter_cons, h]

theorem processEvents_exceeded (maxT : Int) (es : List AgentEventKind) :
    ∀ t : Nat, processEvents maxT { turnCount := t, maxTurnsExceeded := true } es =
      ({ turnCount := t + countTurnEnds es, maxTurnsExceeded := true }, 0) := by
  induction es with
  | nil => intro t; simp [processEvents, countTurnEnds_nil]
  | cons e es ih =>
    intro t
    cases e with
    | turn_end =>
      simp [processEvents, handleTurnEvent, ih, countTurnEnds_cons_turn_end]
      omega
    | tool_execution_end =>
      simp [processEvents, handleTurnEvent, ih,
        countTurnEnds_cons_of_not AgentEventKind.tool_execution_end es rfl]
    | other =>
      simp [processEvents, handleTurnEvent, ih,
        countTurnEnds_cons_of_not AgentEventKind.other es rfl]

theorem processEvents_below (maxT : Int) (es : List AgentEventKind) :
    ∀ t : Nat, ¬ maxT ≤ (t : Int) →
      processEvents maxT { turnCount := t, maxTurnsExceeded := false } es =
        ({ turnCount := t + countTurnEnds es,
           maxTurnsExceeded := decide (maxT ≤ ((t + countTurnEnds es : Nat) : Int)) },
         if maxT ≤ ((t + countTurnEnds es : Nat) : Int) then 1 else 0) := by
  induction es with
  | nil =>
    intro t ht
    simp [processEvents, countTurnEnds_nil, ht]
  | cons e es ih =>
    intro t ht
    cases e with
    | turn_end =>
      rw [countTurnEnds_cons_turn_end,
        show t + (countTurnEnds es + 1) = (t + 1) + countTurnEnds es from by omega]
      by_cases h2 : maxT ≤ ((t + 1 : Nat) : Int)
      · have hstep : handleTurnEvent maxT { turnCount := t, maxTurnsExceeded := false }
            .turn_end = ({ turnCount := t + 1, maxTurnsExceeded := true }, true) := by
          push_cast at h2
          simp [handleTurnEvent, h2]
        have h3 : maxT ≤ (((t + 1) + countTurnEnds es : Nat) : Int) := by
          push_cast at h2 ⊢
          omega
        simp only [processEvents, hstep]
        rw [processEvents_exceeded maxT es (t + 1)]
        rw [if_pos h3, decide_eq_true h3]
        simp
      · have hstep : handleTurnEvent maxT { turnCount := t, maxTurnsExceeded := false }
            .turn_end = ({ turnCount := t + 1, maxTurnsExceeded := false }, false) := by
          have h2' : ¬ maxT ≤ (t : Int) + 1 := by
            push_cast at h2
            exact h2
          simp [handleTurnEvent, h2']
        simp only [processEvents, hstep]
        rw [ih (t + 1) h2]
        simp
    | tool_execution_end =>
      simp only [processEvents,
        show handleTurnEvent maxT { turnCount := t, maxTurnsExceeded := false }
          .tool_execution_end = ({ turnCount := t, maxTurnsExceeded := false }, false) from rfl]
      rw [ih t ht, countTurnEnds_cons_of_not AgentEventKind.tool_execution_end es rfl]
      simp
    | other =>
      simp only [processEvents,
        show handleTurnEvent maxT { turnCount := t, maxTurnsExceeded := false }
          .other = ({ turnCount := t, maxTurnsExceeded := false }, false) from rfl]
      rw [ih t ht, countTurnEnds_cons_of_not AgentEventKind.other es rfl]
      simp

theorem processEvents_no_turn_ends (m : Int) (es : List AgentEventKind) :
    ∀ s : RunState, countTurnEnds es = 0 → (processEvents m s es).2 = 0 := by
  induction es with
  | nil => intro s _; rfl
  | cons e es ih =>
    intro s h
    cases e with
    | turn_end => simp [countTurnEnds_cons_turn_end] at h
    | tool_execution_end =>
      have h' : countTurnEnds es = 0 := by
        rw [countTurnEnds_cons_of_not AgentEventKind.tool_execution_end es rfl] at h
        exact h
      simp [processEvents, handleTurnEvent, ih _ h']
    | other =>
      have h' : countTurnEnds es = 0 := by
        rw [countTurnEnds_cons_of_not AgentEventKind.other es rfl] at h
        exact h
      simp [processEvents, handleTurnEvent, ih _ h']

/-! ## C1: turn-cap enforcement -/

/-- C1: for every run and every event sequence (with an effective cap of at
least one, as the constructor guarantees), the controller increments
`turnCount` on each `turn_end` event, marks the run cap-exceeded exactly when
the number of turn boundaries reaches the cap, and requests cancellation of
the reasoning engine exactly once — one request when the cap is reached
(e.g. on the 3rd of 4 turn boundaries with `maxTurns = 3`) and zero before,
with no second request on later turn boundaries. -/
theorem c1_turn_cap_exactly_once (maxTurns : Int) (es : List AgentEventKind)
    (hcap : 1 ≤ maxTurns) :
    processEvents maxTurns { turnCount := 0, maxTurnsExceeded := false } es =
      ({ turnCount := countTurnEnds es,
         maxTurnsExceeded := decide (maxTurns ≤ (countTurnEnds es : Int)) },
       if maxTurns ≤ ((countTurnEnds es : Nat) : Int) then 1 else 0) := by
  have h0 : ¬ maxTurns ≤ ((0 : Nat) : Int) := by
    push_cast
    omega
  have h := processEvents_below maxTurns es 0 h0
  simpa using h

/-- C1 witness: with `maxTurns = 3`, four turn boundaries yield turn count 4,
a cap-exceeded run, and exactly one cancellation request. -/
theorem c1_turn_cap_exactly_once_witness :
    processEvents 3 { turnCount := 0, maxTurnsExceeded := false }
      [.turn_end, .turn_end, .turn_end, .turn_end] =
      ({ turnCount := 4, maxTurnsExceeded := true }, 1) := by
  rw [c1_turn_cap_exactly_once 3 [.turn_end, .turn_end, .turn_end, .turn_end] (by decide)]
  decide

/-! ## C9: the effective turn cap is at least one -/

/-- C9: the effective cap is `max 1 (maxTurns ?? 24)` — at least 1 for every
configured value (including zero and negatives), 24 when absent — and with an
event sequence containing no turn boundary the cap logic never requests
cancellation, so cancellation-by-cap cannot fire before the first turn
completes. -/
theorem c9_effective_cap_at_least_one :
    (∀ o : Option Int, 1 ≤ effectiveMaxTurns o) ∧
    effectiveMaxTurns none = 24 ∧
    (∀ n : Int, effectiveMaxTurns (some n) = max 1 n) ∧
    (∀ (o : Option Int) (es : List AgentEventKind), countTurnEnds es = 0 →
      (processEvents (effectiveMaxTurns o)
        { turnCount := 0, maxTurnsExceeded := false } es).2 = 0) := by
  refine ⟨?_, rfl, fun n => rfl, ?_⟩
  · intro o
    exact le_max_left 1 _
  · intro o es h
    exact processEvents_no_turn_ends (effectiveMaxTurns o) es _ h

/-- C9 witness: a negative configured cap still yields an effective cap of at
least 1, and a turn-boundary-free event sequence requests no cancellation. -/
theorem c9_effective_cap_at_least_one_witness :
    1 ≤ effectiveMaxTurns (some (-5)) ∧
    effectiveMaxTurns (some 0) = 1 ∧
    (processEvents (effectiveMaxTurns (some 0))
      { turnCount := 0, maxTurnsExceeded := false }
      [.tool_execution_end, .other]).2 = 0 :=
  ⟨c9_effective_cap_at_least_one.1 (some (-5)),
   by rw [c9_effective_cap_at_least_one.2.2.1 0]; decide,
   c9_effective_cap_at_least_one.2.2.2 (some 0) [.tool_execution_end, .other] (by decide)⟩

/-! ## C2: source-table merge -/

theorem jsOrOptStr_self (a : Option String) : jsOrOptStr a a = a := by
  unfold jsOrOptStr
  split <;> rfl

theorem jsOrOptStr_absorb (a b : Option String) :
    jsOrOptStr (jsOrOptStr a b) b = jsOrOptStr a b := by
  by_cases h : truthyOpt a = true
  · simp [jsOrOptStr, h]
  · have hb : jsOrOptStr a b = b := by simp [jsOrOptStr, h]
    rw [hb, jsOrOptStr_self]

theorem mergeSourceReference_stable (e : SourceReference) (o : SourceObs) :
    mergeSourceReference (mergeSourceReference e o) o = mergeSourceReference e o := by
  simp [mergeSourceReference, jsOrOptStr_absorb]

theorem lookup_append_single (t : SourceTable) (k : String) (v : SourceReference)
    (h : List.lookup k t = none) : List.lookup k (t ++ [(k, v)]) = some v := by
  induction t with
  | nil => simp [List.lookup]
  | cons p t ih =>
    obtain ⟨a, b⟩ := p
    by_cases hk : (k == a) = true
    · simp [List.lookup, hk] at h
    · have hk' : (k == a) = false := by
        simpa using hk
      simp only [List.lookup, hk'] at h
      simp only [List.cons_append, List.lookup, hk']
      exact ih h

theorem lookup_updateAssoc_self (t : SourceTable) (k : String)
    (v nv : SourceReference) (h : List.lookup k t = some v) :
    List.lookup k (updateAssoc t k nv) = some nv := by
  induction t with
  | nil => simp [List.lookup] at h
  | cons p t ih =>
    obtain ⟨a, b⟩ := p
    by_cases hk : a = k
    · subst hk
      simp [updateAssoc, List.lookup]
    · have hk' : (k == a) = false := by
        simp [BEq.beq]
        exact fun hh => hk hh.symm
      simp only [List.lookup, hk'] at h
      simp only [updateAssoc, hk, if_false, List.lookup, hk']
      exact ih h

theorem updateAssoc_self_id (t : SourceTable) (k : String) (v : SourceReference)
    (h : List.lookup k t = some v) : updateAssoc t k v = t := by
  induction t with
  | nil => simp [List.lookup] at h
  | cons p t ih =>
    obtain ⟨a, b⟩ := p
    by_cases hk : a = k
    · subst hk
      simp [List.lookup] at h
      simp [updateAssoc, h]
    · have hk' : (k == a) = false := by
        simp [BEq.beq]
        exact fun hh => hk hh.symm
      simp only [List.lookup, hk'] at h
      simp only [updateAssoc, if_neg hk]
      rw [ih h]

theorem keys_updateAssoc (t : SourceTable) (k : String) (nv : SourceReference) :
    (updateAssoc t k nv).map Prod.fst = t.map Prod.fst := by
  induction t with
  | nil => rfl
  | cons p t ih =>
    obtain ⟨a, b⟩ := p
    by_cases hk : a = k
    · simp [updateAssoc, hk]
    · simp [updateAssoc, hk, ih]

theorem lookup_none_not_mem (t : SourceTable) (k : String)
    (h : List.lookup k t = none) : k ∉ t.map Prod.fst := by
  induction t with
  | nil => simp
  | cons p t ih =>
    obtain ⟨a, b⟩ := p
    by_cases hk : (k == a) = true
    · simp [List.lookup, hk] at h
    · have hk' : (k == a) = false := by
        simpa using hk
      simp only [List.lookup, hk'] at h
      have hne : k ≠ a := by
        intro he
        subst he
        simp at hk'
      intro hmem
      simp only [List.map_cons, List.mem_cons] at hmem
      rcases hmem with hca | hcb
      · exact hne hca
      · exact ih h hcb

/-- C2: the source-table merge keeps one entry per URL (URL-key uniqueness is
preserved), is idempotent (adding the same observation twice equals adding it
once, for any timestamps), and on a second observation of an existing URL it
keeps every populated field, fills only empty fields from the new
observation, and preserves the earliest-seen `addedAt`. -/
theorem c2_source_merge :
    (∀ (t : SourceTable) (o : SourceObs) (n1 n2 : String),
      addSource (addSource t o n1) o n2 = addSource t o n1) ∧
    (∀ (t : SourceTable) (o : SourceObs) (n : String) (e : SourceReference),
      List.lookup o.url t = some e →
        List.lookup o.url (addSource t o n) = some (mergeSourceReference e o) ∧
        (mergeSourceReference e o).addedAt = e.addedAt ∧
        (truthyOpt e.title = true → (mergeSourceReference e o).title = e.title) ∧
        (truthyOpt e.title = false → (mergeSourceReference e o).title = o.title) ∧
        (truthyOpt e.snippet = true → (mergeSourceReference e o).snippet = e.snippet) ∧
        (truthyOpt e.snippet = false → (mergeSourceReference e o).snippet = o.snippet) ∧
        (truthyOpt e.source = true → (mergeSourceReference e o).source = e.source) ∧
        (truthyOpt e.source = false → (mergeSourceReference e o).source = o.source)) ∧
    (∀ (t : SourceTable) (o : SourceObs) (n : String),
      (t.map Prod.fst).Nodup → ((addSource t o n).map Prod.fst).Nodup) := by
  refine ⟨?_, ?_, ?_⟩
  · intro t o n1 n2
    cases h : List.lookup o.url t with
    | none =>
      have hfresh : List.lookup o.url (addSource t o n1) =
          some { url := o.url, title := o.title, source := o.source,
                 snippet := o.snippet, addedAt := n1 } := by
        rw [addSource, h]
        exact lookup_append_single t o.url _ h
      have hm : mergeSourceReference
          { url := o.url, title := o.title, source := o.source,
            snippet := o.snippet, addedAt := n1 } o =
          { url := o.url, title := o.title, source := o.source,
            snippet := o.snippet, addedAt := n1 } := by
        simp [mergeSourceReference, jsOrOptStr_self]
      have hsecond : addSource (addSource t o n1) o n2 =
          updateAssoc (addSource t o n1) o.url
            { url := o.url, title := o.title, source := o.source,
              snippet := o.snippet, addedAt := n1 } := by
        rw [addSource, hfresh]
        simp only [hm]
      rw [hsecond]
      exact updateAssoc_self_id _ o.url _ hfresh
    | some e =>
      have h1 : addSource t o n1 = updateAssoc t o.url (mergeSourceReference e o) := by
        rw [addSource, h]
      have h2 : List.lookup o.url (addSource t o n1) = some (mergeSourceReference e o) := by
        rw [h1]
        exact lookup_updateAssoc_self t o.url e _ h
      have hsecond : addSource (addSource t o n1) o n2 =
          updateAssoc (addSource t o n1) o.url (mergeSourceReference e o) := by
        rw [addSource, h2]
        simp only [mergeSourceReference_stable]
      rw [hsecond]
      exact updateAssoc_self_id _ o.url _ h2
  · intro t o n e h
    refine ⟨?_, rfl, ?_, ?_, ?_, ?_, ?_, ?_⟩
    · rw [addSource, h]
      exact lookup_updateAssoc_self t o.url e _ h
    all_goals intro hf
    all_goals simp [mergeSourceReference, jsOrOptStr, hf]
  · intro t o n hnodup
    cases h : List.lookup o.url t with
    | none =>
      rw [addSource, h, List.map_append]
      rw [List.nodup_append]
      refine ⟨hnodup, by simp, ?_⟩
      intro a ha hb
      simp at hb
      subst hb
      exact lookup_none_not_mem t o.url h ha
    | some e =>
      rw [addSource, h, keys_updateAssoc]
      exact hnodup

/-- C2 witness: for a stored entry with populated title, empty-string
snippet and no provenance tag, a conflicting later observation leaves the
title and timestamp unchanged and fills only the empty fields. -/
theorem c2_source_merge_witness :
    List.lookup "u" (addSource [("u", c2exist)] c2obs "t1")
        = some (mergeSourceReference c2exist c2obs) ∧
    (mergeSourceReference c2exist c2obs).title = c2exist.title ∧
    (mergeSourceReference c2exist c2obs).snippet = c2obs.snippet ∧
    (mergeSourceReference c2exist c2obs).source = c2obs.source ∧
    (mergeSourceReference c2exist c2obs).addedAt = c2exist.addedAt := by
  have h := c2_source_merge.2.1 [("u", c2exist)] c2obs "t1" c2exist (by decide)
  exact ⟨h.1, h.2.2.1 (by decide), h.2.2.2.2.2.1 (by decide),
    h.2.2.2.2.2.2.2 (by decide), h.2.1⟩

/-! ## C4: one RunState at a time -/

/-- C4: a controller holds at most one `RunState`: calling `run()` while a
run is active fails with the concurrent-run error before any state is
created (the stored state is untouched), the `RunState` is cleared
unconditionally — whatever the outcome — before `run()` returns or throws,
and therefore a subsequent `run()` call is never rejected as concurrent. -/
theorem c4_single_run_state :
    (∀ (rs : RunState) (seed : String) (p : Option UrlParts) (pt : Bool)
        (fr : RunState) (re : Bool),
      runModel (some rs) seed p pt fr re = (some rs, .error .concurrentRun)) ∧
    (∀ (seed : String) (p : Option UrlParts) (pt : Bool) (fr : RunState) (re : Bool),
      (runModel none seed p pt fr re).1 = none) ∧
    (∀ (seed seed2 : String) (p p2 : Option UrlParts) (pt pt2 : Bool)
        (fr fr2 : RunState) (re re2 : Bool),
      (runModel (runModel none seed p pt fr re).1 seed2 p2 pt2 fr2 re2).2 ≠
        Except.error RunError.concurrentRun) := by
  refine ⟨?_, ?_, ?_⟩
  · intro rs seed p pt fr re
    simp [runModel]
  · intro seed p pt fr re
    unfold runModel
    split
    · simp_all
    · split
      · rfl
      · rcases p with _ | u
        · rfl
        · simp only []
          split
          · rfl
          · split
            · rfl
            · split <;> rfl
  · intro seed seed2 p p2 pt pt2 fr fr2 re re2
    have h1 : (runModel none seed p pt fr re).1 = none := by
      unfold runModel
      split
      · simp_all
      · split
        · rfl
        · rcases p with _ | u
          · rfl
          · simp only []
            split
            · rfl
            · split
              · rfl
              · split <;> rfl
    rw [h1]
    unfold runModel
    split
    · simp_all
    · split
      · simp
      · rcases p2 with _ | u
        · simp
        · simp only []
          split
          · simp
          · split
            · simp
            · split <;> simp

/-! ## C3: web-search aggregation and partial provider failure -/

theorem exists_error_ite_iff {α : Type} (C : Prop) [Decidable C] (msg : String) (val : α) :
    (∃ e, (if C then Except.error msg else Except.ok val) = Except.error e) ↔ C := by
  split
  · rename_i h
    constructor
    · intro _
      exact h
    · intro _
      exact ⟨msg, rfl⟩
  · rename_i h
    constructor
    · rintro ⟨e, he⟩
      exact absurd he (by simp)
    · intro hc
      exact absurd hc h

/-- C3: the aggregator throws exactly when the final merged result list is
empty (for a nonempty query), a single provider's exception is recorded as a
labeled string rather than aborting the other provider; in particular, when
the primary throws and the secondary returns two distinct results under a
limit of 5, the result is exactly those two results plus one recorded
primary-provider error string. -/
theorem c3_aggregator_provider_errors :
    (∀ (query : String) (limit : Nat)
        (primary secondary : Except String (List WebSearchResult)),
      (jsTrim query).length ≠ 0 →
      ((∃ e, webSearchExecute query limit primary secondary = .error e) ↔
        mergedResults limit primary secondary = [])) ∧
    (∀ (query m : String) (r1 r2 : WebSearchResult),
      (jsTrim query).length ≠ 0 → r1.url ≠ r2.url →
      webSearchExecute query 5 (.error m) (.ok [r1, r2]) =
        .ok { query := jsTrim query, results := [r1, r2],
              providerErrors := some ["semantic-scholar: " ++ m] }) := by
  constructor
  · intro query limit primary secondary hq
    unfold webSearchExecute mergedResults
    rw [if_neg hq]
    rcases primary with m | rs <;> rcases secondary with m' | rs' <;>
      simp only [] <;> split <;>
      simp_all [List.length_eq_zero] <;>
      exact exists_error_ite_iff _ _ _
  · intro query m r1 r2 hq hurl
    have hne : (r2.url == r1.url) = false := by
      simp only [beq_eq_false_iff_ne, ne_eq]
      exact fun hh => hurl hh.symm
    have hne' : r2.url ≠ r1.url := fun hh => hurl hh.symm
    unfold webSearchExecute
    rw [if_neg hq]
    simp [dedupeResults, dedupeAux, List.contains, hne, hne']

/-- C3 witness: primary throws `"boom"`, secondary returns two results with
distinct URLs, limit 5. -/
theorem c3_aggregator_provider_errors_witness :
    webSearchExecute "q" 5 (.error "boom") (.ok [c3r1, c3r2]) =
      .ok { query := "q", results := [c3r1, c3r2],
            providerErrors := some ["semantic-scholar: boom"] } := by
  rw [c3_aggregator_provider_errors.2 "q" "boom" c3r1 c3r2 (by decide) (by decide)]
  rfl

/-! ## C5: slug derivation (corrected) -/

/-- C5 counterexample: the seed URL `https://arxiv.org/abs/1706.03762` does
not yield the slug `"arxiv-1706.03762"` — sanitization also collapses the
dot of the identifier to a hyphen, so the actual slug is
`"arxiv-1706-03762"`. -/
theorem c5_slug_counterexample :
    createPaperSlug { hostname := "arxiv.org", pathname := "/abs/1706.03762" } ≠
      "arxiv-1706.03762" ∧
    createPaperSlug { hostname := "arxiv.org", pathname := "/abs/1706.03762" } =
      "arxiv-1706-03762" := by
  constructor
  · decide
  · decide

/-- C5 (amended): for a seed URL on an `arxiv.org` host whose path matches
the `/abs/<id>` or `/pdf/<id>[.pdf]` pattern, the slug is
`sanitizeSlug ("arxiv-" ++ id)` — the repository prefix joined to the
identifier, lower-cased, with every run of non-alphanumeric characters
(hyphens and dots alike) collapsed to a single hyphen; in particular
`https://arxiv.org/abs/1706.03762` yields `"arxiv-1706-03762"` and
`https://arxiv.org/pdf/1706.03762.pdf` yields the same slug. -/
theorem c5_slug_derivation (host path id : String)
    (hhost : strEndsWith host "arxiv.org" = true)
    (hpath : matchAbsPath path = some id ∨
      (matchAbsPath path = none ∧ matchPdfPath path = some id))
    (hslug : sanitizeSlug ("arxiv-" ++ id) ≠ "") :
    createPaperSlug { hostname := host, pathname := path } =
      sanitizeSlug ("arxiv-" ++ id) := by
  have hid : parseArxivId { hostname := host, pathname := path } = some id := by
    unfold parseArxivId
    simp only [hhost, Bool.not_true, Bool.false_eq_true, if_false]
    rcases hpath with habs | ⟨habs, hpdf⟩
    · simp [habs]
    · simp [habs, hpdf]
  unfold createPaperSlug
  rw [hid]
  simp [jsOrStr, hslug]

/-- C5 witness: the two concrete seed URLs of the amended claim. -/
theorem c5_slug_derivation_witness :
    createPaperSlug { hostname := "arxiv.org", pathname := "/abs/1706.03762" } =
      sanitizeSlug ("arxiv-" ++ "1706.03762") ∧
    createPaperSlug { hostname := "arxiv.org", pathname := "/pdf/1706.03762.pdf" } =
      sanitizeSlug ("arxiv-" ++ "1706.03762") :=
  ⟨c5_slug_derivation "arxiv.org" "/abs/1706.03762" "1706.03762" (by decide)
      (Or.inl (by decide)) (by decide),
   c5_slug_derivation "arxiv.org" "/pdf/1706.03762.pdf" "1706.03762" (by decide)
      (Or.inr ⟨by decide, by decide⟩) (by decide)⟩

/-! ## C6: report validator completeness flag -/

/-- C6: `isComplete` is exactly the conjunction of the four independent
checks — all required headings present, every required question section's
body at least 120 characters long, the related-work section containing both
a comparison keyword and a bracket citation or literal URL, and the
references section containing a literal URL — and `missingHeadings` is
exactly the list of required headings that are absent. -/
theorem c6_validator_completeness (markdown : String) :
    ((validateReport markdown).isComplete =
      ((validateReport markdown).hasAllRequiredHeadings &&
       (validateReport markdown).answeredRequiredQuestions &&
       (validateReport markdown).hasRelatedWorkComparison &&
       (validateReport markdown).hasReferenceUrls)) ∧
    ((validateReport markdown).hasAllRequiredHeadings = true ↔
      ∀ h ∈ REQUIRED_REPORT_HEADINGS, hasHeading markdown h = true) ∧
    ((validateReport markdown).answeredRequiredQuestions = true ↔
      ∀ h ∈ REQUIRED_QUESTION_HEADINGS, 120 ≤ (getSectionBody markdown h).length) ∧
    ((validateReport markdown).hasRelatedWorkComparison = true ↔
      (hasComparisonKeywordIn
          (getSectionBody markdown "## 3. Related Work and Key Differences") = true ∧
       (hasBracketCitationIn
          (getSectionBody markdown "## 3. Related Work and Key Differences") = true ∨
        hasUrlCi (getSectionBody markdown "## 3. Related Work and Key Differences") = true))) ∧
    ((validateReport markdown).hasReferenceUrls =
      hasUrlCs (getSectionBody markdown "## References")) ∧
    ((validateReport markdown).missingHeadings =
      REQUIRED_REPORT_HEADINGS.filter (fun h => !(hasHeading markdown h))) := by
  refine ⟨rfl, ?_, ?_, ?_, rfl, rfl⟩
  · simp [validateReport, List.length_eq_zero, List.filter_eq_nil_iff]
  · simp [validateReport, List.all_eq_true]
  · simp [validateReport, Bool.and_eq_true, Bool.or_eq_true]

/-- C6 witness: a report with only the `# Paper` heading fails the heading
check (via the required heading `## References`), and a references section
with no literal URL fails the reference-URL check. -/
theorem c6_validator_completeness_witness :
    (validateReport "# Paper").hasAllRequiredHeadings = false ∧
    (validateReport "## References\nsee our website").hasReferenceUrls = false := by
  constructor
  · by_contra hb
    have htrue : (validateReport "# Paper").hasAllRequiredHeadings = true := by
      revert hb
      cases (validateReport "# Paper").hasAllRequiredHeadings <;> simp
    have hall := (c6_validator_completeness "# Paper").2.1.mp htrue
    exact absurd (hall "## References" (by decide)) (by decide)
  · rw [(c6_validator_completeness "## References\nsee our website").2.2.2.2.1]
    decide

/-! ## C7: extraction classification -/

/-- C7: a URL whose (lower-cased) path ends in `.pdf` on a non-arXiv host
classifies as `pdf` whatever the content type; a URL on an `arxiv.org` host
always classifies as `arxiv` regardless of extension, and that branch never
inspects the content-type header (the result is identical for any two
content types). -/
theorem c7_classification :
    (∀ (u : UrlParts) (ct : Option String),
      strEndsWith (strToLower u.pathname) ".pdf" = true →
      strEndsWith u.hostname "arxiv.org" = false →
      classifySourceType u ct = .pdf) ∧
    (∀ (u : UrlParts) (ct : Option String),
      strEndsWith u.hostname "arxiv.org" = true →
      classifySourceType u ct = .arxiv) ∧
    (∀ (u : UrlParts) (ct ct' : Option String),
      strEndsWith u.hostname "arxiv.org" = true →
      classifySourceType u ct = classifySourceType u ct') := by
  refine ⟨?_, ?_, ?_⟩
  · intro u ct hpdf harxiv
    simp [classifySourceType, harxiv, hpdf]
  · intro u ct h
    simp [classifySourceType, h]
  · intro u ct ct' h
    simp [classifySourceType, h]

/-- C7 witness: `/paper.PDF` on a generic host is `pdf` even with no content
type; an arXiv URL is `arxiv` even with extension `.pdf` and content type
`text/html`. -/
theorem c7_classification_witness :
    classifySourceType { hostname := "example.com", pathname := "/paper.PDF" } none =
      SourceType.pdf ∧
    classifySourceType { hostname := "arxiv.org", pathname := "/pdf/1706.03762v7.pdf" }
      (some "text/html") = SourceType.arxiv :=
  ⟨c7_classification.1 { hostname := "example.com", pathname := "/paper.PDF" } none
      (by decide) (by decide),
   c7_classification.2.1 { hostname := "arxiv.org", pathname := "/pdf/1706.03762v7.pdf" }
      (some "text/html") (by decide)⟩

/-! ## C8 and C10: generic extraction, mirror soft-fail, abstract backfill -/

theorem mirrorFails_none (o : MirrorFetchOutcome) (h : mirrorFails o = true) :
    fetchReadableMirror o = none := by
  cases o with
  | threw => rfl
  | response ok body =>
    simp [mirrorFails] at h
    rcases h with h | h
    · simp [fetchReadableMirror, h]
    · simp [fetchReadableMirror, h]

theorem fullText_mem_missing (dd : ExtractSourceToolDetails) :
    ("fullText" ∈ getMissingFields dd) ↔ truthyOpt dd.fullText = false := by
  simp only [getMissingFields, List.mem_append]
  split <;> split <;> split <;> split <;> simp_all

theorem abstract_mem_missing (dd : ExtractSourceToolDetails) :
    ("abstract" ∈ getMissingFields dd) ↔ truthyOpt dd.abstract = false := by
  simp only [getMissingFields, List.mem_append]
  split <;> split <;> split <;> split <;> simp_all

theorem truthyOpt_clip (a : Option String) (n : Nat) (h : truthyOpt a = true) :
    truthyOpt (some (clipText (a.getD "") n)) = true := by
  cases a with
  | none => simp [truthyOpt] at h
  | some v =>
    simp only [truthyOpt, Option.getD_some, Bool.not_eq_true', beq_eq_false_iff_ne, ne_eq] at h ⊢
    unfold clipText
    split
    · exact h
    · intro hcontra
      have hlen : (strTake v (n - 1) ++ "…").length = 0 := by
        rw [hcontra]
        rfl
      have hell : ("…" : String).length = 1 := rfl
      rw [String.length_append, hell] at hlen
      omega

/-- C8: the readability-mirror fetch is a soft-fail path.  Each spec-named
failure mode (thrown fetch, non-ok status, empty body) makes
`fetchReadableMirror` yield `undefined`; and for any extraction that falls
back to the mirror for full text (`pdf` sources, or `html`/`other` sources
whose stripped body is empty), failing mirror fetches leave `fullText`
absent and listed in `missingFields` while the extraction itself still
succeeds. -/
theorem c8_mirror_soft_fail :
    (∀ o : MirrorFetchOutcome, mirrorFails o = true → fetchReadableMirror o = none) ∧
    (∀ (resp : FetchResponse) (mirrorA mirrorB : MirrorFetchOutcome),
      resp.ok = true → mirrorFails mirrorA = true → mirrorFails mirrorB = true →
      (genericSourceType resp = .pdf ∨ stripHtmlToText resp.body = "") →
      ∃ d, extractGenericSource resp mirrorA mirrorB = .ok d ∧
        d.fullText = none ∧ "fullText" ∈ d.missingFields) := by
  refine ⟨mirrorFails_none, ?_⟩
  intro resp mA mB hok hA hB hkind
  have hpre : preFullText resp mA = none := by
    rcases hkind with hpdf | hstrip
    · simp [preFullText, hpdf, isHtmlLike, mirrorFails_none mA hA]
    · cases hst : genericSourceType resp with
      | arxiv => simp [preFullText, hst, isHtmlLike]
      | pdf => simp [preFullText, hst, isHtmlLike, mirrorFails_none mA hA]
      | html => simp [preFullText, hst, isHtmlLike, hstrip]
      | other => simp [preFullText, hst, isHtmlLike, hstrip]
  have hfull : finalFullText resp mA mB = none := by
    unfold finalFullText
    rw [hpre]
    simp [truthyOpt, mirrorFails_none mB hB]
  have hex : extractGenericSource resp mA mB =
      .ok { genericDetailsPre resp mA mB with
            missingFields := getMissingFields (genericDetailsPre resp mA mB) } := by
    unfold extractGenericSource
    rw [hok]
    simp
  refine ⟨_, hex, ?_, ?_⟩
  · show (genericDetailsPre resp mA mB).fullText = none
    simp [genericDetailsPre, hfull]
  · show "fullText" ∈ getMissingFields (genericDetailsPre resp mA mB)
    refine (fullText_mem_missing _).mpr ?_
    simp [genericDetailsPre, hfull, truthyOpt]

/-- C8 witness: an ok PDF response whose pdf-branch mirror call returns a
non-ok status and whose retry throws. -/
theorem c8_mirror_soft_fail_witness :
    ∃ d, extractGenericSource pdfResponse (MirrorFetchOutcome.response false "")
        MirrorFetchOutcome.threw = .ok d ∧
      d.fullText = none ∧ "fullText" ∈ d.missingFields :=
  c8_mirror_soft_fail.2 pdfResponse (MirrorFetchOutcome.response false "")
    MirrorFetchOutcome.threw (by decide) (by decide) (by decide) (Or.inl (by decide))

/-- C10 counterexample: for an ok `text/html` response with empty body whose
line-303 mirror retry succeeds, the extraction succeeds with
`missingFields = ["authors", "year", "abstract"]` — it contains `"abstract"`
but not `"fullText"`, refuting the claimed implication. -/
theorem c10_counterexample :
    (extractGenericSource c10response MirrorFetchOutcome.threw
        (MirrorFetchOutcome.response true "hello world from mirror")).toOption =
      some c10details ∧
    "abstract" ∈ c10details.missingFields ∧
    "fullText" ∉ c10details.missingFields := by
  refine ⟨by decide, by decide, by decide⟩

/-- C10 (amended): on the generic extraction path, when the meta-derived
abstract is empty and full text was obtained *before the line-303 mirror
retry* (from stripped HTML or the pdf-branch mirror call), the abstract is
the clipped 1,500-character prefix of that full text; consequently
`missingFields` contains `"abstract"` only if full text was absent before
the retry — the implication to `"fullText" ∈ missingFields` fails when the
retry itself supplies the full text. -/
theorem c10_abstract_backfill (resp : FetchResponse)
    (mirrorA mirrorB : MirrorFetchOutcome) (d : ExtractSourceToolDetails)
    (hd : extractGenericSource resp mirrorA mirrorB = .ok d) :
    (truthyOpt (preAbstract resp) = false → truthyOpt (preFullText resp mirrorA) = true →
      d.abstract = some (clipText ((preFullText resp mirrorA).getD "") 1500)) ∧
    ("abstract" ∈ d.missingFields → truthyOpt (preFullText resp mirrorA) = false) := by
  unfold extractGenericSource at hd
  split at hd
  · exact absurd hd (by simp)
  · have hd' := Except.ok.inj hd
    subst hd'
    constructor
    · intro hA hF
      simp [genericDetailsPre, finalAbstract, hA, hF]
    · intro hmem
      have habs : truthyOpt (finalAbstract resp mirrorA) = false := by
        have h1 := (abstract_mem_missing (genericDetailsPre resp mirrorA mirrorB)).mp hmem
        simpa [genericDetailsPre] using h1
      by_contra hF
      have hF' : truthyOpt (preFullText resp mirrorA) = true := by
        revert hF
        cases truthyOpt (preFullText resp mirrorA) <;> simp
      cases hA : truthyOpt (preAbstract resp) with
      | false =>
        have htr : truthyOpt (finalAbstract resp mirrorA) = true := by
          unfold finalAbstract
          rw [hA, hF']
          exact truthyOpt_clip _ 1500 hF'
        rw [habs] at htr
        exact absurd htr (by simp)
      | true =>
        have htr : truthyOpt (finalAbstract resp mirrorA) = true := by
          unfold finalAbstract
          rw [hA, hF']
          simpa using hA
        rw [habs] at htr
        exact absurd htr (by simp)

/-- C10 witness: a pdf extraction whose first mirror call succeeds — the
abstract is backfilled from the clipped full text. -/
theorem c10_abstract_backfill_witness :
    pdfDetails.abstract =
      some (clipText ((preFullText pdfResponse
        (MirrorFetchOutcome.response true "Quantum  Widgets")).getD "") 1500) :=
  (c10_abstract_backfill pdfResponse (MirrorFetchOutcome.response true "Quantum  Widgets")
      MirrorFetchOutcome.threw pdfDetails (by rfl)).1 (by decide) (by decide)
